import Mathlib

/-
Verification of the Common_Time repository: the timeframe normalization and
intersection engine. The redesigned implementation lives in src/src/timesync.py
(module TimeSync below); the legacy implementation lives in src/common_time.py
(module Legacy below). Date-times are embedded as integers counting minutes
(minute resolution, as in the source); UTC offsets are integers in minutes.
-/

set_option autoImplicit false

namespace CommonTime

/-- Error taxonomy of the core, from spec section 7. -/
inductive TFError where
  | InvalidOffset
  | InvalidDateTime
  | EmptyWindow
deriving DecidableEq, Repr

/-- A timeframe: UTC offset, local start and end instants, and the derived
UTC-normalized bounds, all in minutes. Mirrors the TimeFrame value with its
cached normalized times used by src/src/timesync.py. -/
structure TimeFrame where
  utcOffset : Int
  localStart : Int
  localEnd : Int
  utcStart : Int
  utcEnd : Int
deriving DecidableEq, Repr

/-- Modelled from the spec: the TimeFrame constructor. src/src/timesync.py
imports the TimeFrame class from timeframe.py, which is absent from src/, so
its normalization is taken from spec section 4.1: utcStart = localStart -
offset; utcEndCandidate = localEnd - offset; when localEnd <= localStart add
24 hours (1440 minutes) to the candidate; reject an offset whose magnitude
exceeds 24 hours with InvalidOffset and a non-increasing normalized window
with EmptyWindow. -/
def mkTimeFrame (utcOffset localStart localEnd : Int) : Except TFError TimeFrame :=
  if 1440 < utcOffset.natAbs then
    .error .InvalidOffset
  else
    let utcStart := localStart - utcOffset
    let utcEndCandidate := localEnd - utcOffset
    let utcEnd := if localEnd ≤ localStart then utcEndCandidate + 1440 else utcEndCandidate
    if utcStart < utcEnd then
      .ok ⟨utcOffset, localStart, localEnd, utcStart, utcEnd⟩
    else
      .error .EmptyWindow

/-- Accessor returning the normalized (utcStart, utcEnd) pair, as
TimeFrame.get_norm_times is used by src/src/timesync.py. -/
def TimeFrame.get_norm_times (tf : TimeFrame) : Int × Int :=
  (tf.utcStart, tf.utcEnd)

namespace TimeSync

/-- The TIMEFRAMES dictionary of src/src/timesync.py: a mapping from string
identifiers to TimeFrame values, embedded as an association list in insertion
order (Python dictionaries preserve insertion order and keep keys unique). -/
abbrev Store := List (String × TimeFrame)

/-- Python dictionary item assignment TIMEFRAMES[k] = v: replace the entry in
place when the key is present, append otherwise. -/
def dictSet (k : String) (v : TimeFrame) (store : Store) : Store :=
  if (store.lookup k).isSome then
    store.map (fun p => if p.1 == k then (k, v) else p)
  else
    store ++ [(k, v)]

/-- Python str.lower applied character by character (the inputs compared
against are the ASCII strings "y" and "yes", for which per-character
lowering coincides with Python lowering). -/
def strLower (s : String) : String :=
  String.mk (s.data.map Char.toLower)

/-- The confirmation test response.lower() in ["y", "yes"] used by
add_timeframe and reset in src/src/timesync.py. -/
def confirms (response : String) : Bool :=
  strLower response == "y" || strLower response == "yes"

/-- Outcome of an add_timeframe call: the timeframe was stored, the duplicate
prompt was declined and nothing changed, or the TimeFrame constructor
failed. -/
inductive AddOutcome where
  | added
  | duplicateAborted
  | constructionError (e : TFError)
deriving DecidableEq, Repr

/-- add_timeframe from src/src/timesync.py: substitute the default id when
timeframe_id is None; when the id already exists and the user does not
confirm, abort without touching the store; otherwise construct the TimeFrame
and assign it into the store (a construction failure leaves the store
unchanged). -/
def add_timeframe (timeframe_id : Option String) (utc_offset start_time end_time : Int)
    (response : String) (store : Store) : AddOutcome × Store :=
  let tid := match timeframe_id with
    | none => "Timeframe " ++ toString ((store.length : Int) - 1)
    | some t => t
  if (store.lookup tid).isSome && !confirms response then
    (.duplicateAborted, store)
  else
    match mkTimeFrame utc_offset start_time end_time with
    | .error e => (.constructionError e, store)
    | .ok tf => (.added, dictSet tid tf store)

/-- find_shared_timeframe from src/src/timesync.py: start from the first
timeframe of the store and fold over the rest, keeping the later start and the
earlier end; return none when the latest start is strictly greater than the
earliest end. The empty case never occurs in the program because main guards
the command with a length check. -/
def find_shared_timeframe : List TimeFrame → Option (Int × Int)
  | [] => none
  | t0 :: rest =>
    let init := t0.get_norm_times
    let acc := rest.foldl
      (fun (acc : Int × Int) tf =>
        let norm := tf.get_norm_times
        (if norm.1 > acc.1 then norm.1 else acc.1,
         if norm.2 < acc.2 then norm.2 else acc.2))
      init
    if acc.1 > acc.2 then none else some acc

/-- remove_timeframe from src/src/timesync.py: report failure and leave the
store unchanged when the id is absent; otherwise pop the entry. -/
def remove_timeframe (timeframe_id : String) (store : Store) : Bool × Store :=
  if (store.lookup timeframe_id).isNone then
    (false, store)
  else
    (true, store.eraseP (fun p => p.1 == timeframe_id))

/-- reset from src/src/timesync.py: prompt for confirmation; clear the store
and return true only when the response confirms, otherwise return false. -/
def reset (response : String) (store : Store) : Bool × Store :=
  if confirms response then (true, []) else (false, store)

/-- Error signalled by the find / run / sync command guard in main. -/
inductive EngineError where
  | InsufficientTimeframes
deriving DecidableEq, Repr

/-- The find / run / sync command of main in src/src/timesync.py: when the
store holds at most one timeframe, report the insufficient-timeframes error
and do not compute; otherwise run find_shared_timeframe on the stored
values. -/
def run_command (store : Store) : Except EngineError (Option (Int × Int)) :=
  if store.length ≤ 1 then
    .error .InsufficientTimeframes
  else
    .ok (find_shared_timeframe (store.map Prod.snd))

end TimeSync

namespace Legacy

/-- The module-level state of src/common_time.py: the startTimes and endTimes
lists of UTC instants and the limit counter. -/
structure State where
  startTimes : List Int
  endTimes : List Int
  limit_count : Nat
deriving DecidableEq, Repr

/-- Modelled from the spec: convertToUTC in src/common_time.py calls an
external time-conversion network service, which the spec (sections 1 and 9)
replaces by pure offset arithmetic declared mathematically equivalent:
converting a local instant to UTC subtracts the fixed offset. -/
def convertToUTC (offset localTime : Int) : Int :=
  localTime - offset

/-- add from src/common_time.py: append the converted start time; when the
start is strictly before the end append the converted end time, otherwise the
end is in the next day and a day is added before conversion; increment the
counter. -/
def add (offset startTime endTime : Int) (st : State) : State :=
  { startTimes := st.startTimes ++ [convertToUTC offset startTime],
    endTimes := st.endTimes ++
      [if startTime < endTime then convertToUTC offset endTime
       else convertToUTC offset (endTime + 1440)],
    limit_count := st.limit_count + 1 }

/-- clear from src/common_time.py: empty both lists and zero the counter. -/
def clear (_st : State) : State :=
  { startTimes := [], endTimes := [], limit_count := 0 }

/-- run from src/common_time.py: fold over startTimes replacing the
accumulator whenever it is greater than the item, fold over endTimes replacing
the accumulator whenever it is less than the item, then report the pair when
the first is strictly below the second and no common frame otherwise. Both
lists are indexed at 0 first, so the empty case never returns a value. -/
def run (startTimes endTimes : List Int) : Option (Option (Int × Int)) :=
  match startTimes, endTimes with
  | s0 :: _, e0 :: _ =>
    let op_startTime := startTimes.foldl (fun acc item => if acc > item then item else acc) s0
    let op_endTime := endTimes.foldl (fun acc item => if acc < item then item else acc) e0
    if op_startTime < op_endTime then
      some (some (op_startTime, op_endTime))
    else
      some none
  | _, _ => none

/-- First while loop of vis in src/common_time.py: while the reference is
before the start of the timeframe, append a bar, advance the reference by 30
minutes and bump the increment counter. -/
def barLoop (ref target : Int) (counter : Nat) : List Char × Int × Nat :=
  if ref < target then
    let r := barLoop (ref + 30) target (counter + 1)
    ('|' :: r.1, r.2)
  else
    ([], ref, counter)
termination_by (target - ref).toNat
decreasing_by simp_wf; omega

/-- Second while loop of vis in src/common_time.py: while the reference is
before the end of the timeframe, append a space, advance the reference and
bump the counter. -/
def spaceLoop (ref target : Int) (counter : Nat) : List Char × Int × Nat :=
  if ref < target then
    let r := spaceLoop (ref + 30) target (counter + 1)
    (' ' :: r.1, r.2)
  else
    ([], ref, counter)
termination_by (target - ref).toNat
decreasing_by simp_wf; omega

/-- Third while loop of vis in src/common_time.py: while the increment
counter, which is shared across all rows, is below 49, append a bar, advance
the reference and bump the counter. -/
def padLoop (ref : Int) (counter : Nat) : List Char × Int × Nat :=
  if counter < 49 then
    let r := padLoop (ref + 30) (counter + 1)
    ('|' :: r.1, r.2)
  else
    ([], ref, counter)
termination_by 49 - counter
decreasing_by simp_wf; omega

/-- One iteration of the for loop of vis in src/common_time.py: reset the
reference to the first start time, run the three while loops and print the
accumulated row; return the row and the updated shared counter. -/
def visRow (s0 sn en : Int) (counter : Nat) : String × Nat :=
  let step1 := barLoop s0 sn counter
  let step2 := spaceLoop step1.2.1 en step1.2.2
  let step3 := padLoop step2.2.1 step2.2.2
  (String.mk (step1.1 ++ step2.1 ++ step3.1), step3.2.2)

/-- The for loop of vis, iterating over the (startTimes[n], endTimes[n])
pairs while threading the shared increment counter. -/
def visRows (s0 : Int) (counter : Nat) : List (Int × Int) → List String
  | [] => []
  | (sn, en) :: rest =>
    let r := visRow s0 sn en counter
    r.1 :: visRows s0 r.2 rest

/-- vis from src/common_time.py, with startTimes and endTimes zipped into one
list of UTC (start, end) pairs: the increment counter starts at 0 once for
the whole command, and every row measures from startTimes[0]. On an empty
store the for loop body never runs and nothing is printed. -/
def vis : List (Int × Int) → List String
  | [] => []
  | frames@((s0, _) :: _) => visRows s0 0 frames

end Legacy

/-- Number of iterations of a 30-minute advancing while loop that starts at
a and stops once the reference reaches b: the ceiling of (b - a) / 30,
and 0 when a is already at or past b. -/
def steps (a b : Int) : Nat :=
  ((b - a).toNat + 29) / 30

/-- The row the original claim C9 describes: 48 half-hour buckets measured
from a reference origin, a bucket marked as inside (a space) exactly when its
start instant lies in the [utcStart, utcEnd) window of the timeframe, and as
outside (a bar) otherwise. -/
def claimVisRow (origin sn en : Int) : String :=
  String.mk ((List.range 48).map
    (fun i => if sn ≤ origin + 30 * (i : Int) ∧ origin + 30 * (i : Int) < en then ' ' else '|'))

/-- The visualization the original claim C9 describes: the reference origin
is the global minimum utcStart over all stored timeframes, and each timeframe
yields its 48-bucket coverage row. -/
def claimVis (frames : List (Int × Int)) : List String :=
  let origin := (frames.map Prod.fst).foldl min ((frames.map Prod.fst).headD 0)
  frames.map (fun p => claimVisRow origin p.1 p.2)

/-- Closed form of one row of the legacy vis: from the first start time s0,
ceil((sn - s0) / 30) bars, then spaces up to en from the first 30-minute grid
point at or after sn, then bars only while the shared counter has not yet
reached 49. -/
def amendedVisRow (s0 sn en : Int) (counter : Nat) : String × Nat :=
  let k1 := steps s0 sn
  let k2 := steps (s0 + 30 * k1) en
  let k3 := 49 - (counter + k1 + k2)
  (String.mk (List.replicate k1 '|' ++ List.replicate k2 ' ' ++ List.replicate k3 '|'),
   max (counter + k1 + k2) 49)

/-- Closed form of the legacy vis row list, threading the shared counter. -/
def amendedVisRows (s0 : Int) (counter : Nat) : List (Int × Int) → List String
  | [] => []
  | (sn, en) :: rest =>
    let r := amendedVisRow s0 sn en counter
    r.1 :: amendedVisRows s0 r.2 rest

/-- Closed form of the legacy vis output as a whole. -/
def amendedVis : List (Int × Int) → List String
  | [] => []
  | frames@((s0, _) :: _) => amendedVisRows s0 0 frames

/- ------------------------------------------------------------------ -/
/- Helper lemmas                                                       -/
/- ------------------------------------------------------------------ -/

theorem steps_eq_zero {a b : Int} (h : ¬ a < b) : steps a b = 0 := by
  unfold steps
  omega

theorem steps_succ {a b : Int} (h : a < b) : steps a b = steps (a + 30) b + 1 := by
  unfold steps
  omega

theorem barLoop_eq_aux (fuel : Nat) : ∀ (ref target : Int) (counter : Nat),
    (target - ref).toNat ≤ fuel →
    Legacy.barLoop ref target counter =
      (List.replicate (steps ref target) '|', ref + 30 * steps ref target,
        counter + steps ref target) := by
  induction fuel with
  | zero =>
    intro ref target counter h
    rw [Legacy.barLoop]
    have h0 : ¬ ref < target := by omega
    rw [if_neg h0, steps_eq_zero h0]
    simp
  | succ n ih =>
    intro ref target counter h
    rw [Legacy.barLoop]
    by_cases h0 : ref < target
    · rw [if_pos h0, ih (ref + 30) target (counter + 1) (by omega), steps_succ h0]
      simp only [Prod.mk.injEq]
      refine ⟨(List.replicate_succ _ _).symm, by push_cast; ring, by omega⟩
    · rw [if_neg h0, steps_eq_zero h0]
      simp

theorem barLoop_eq (ref target : Int) (counter : Nat) :
    Legacy.barLoop ref target counter =
      (List.replicate (steps ref target) '|', ref + 30 * steps ref target,
        counter + steps ref target) :=
  barLoop_eq_aux (target - ref).toNat ref target counter le_rfl

theorem spaceLoop_eq_aux (fuel : Nat) : ∀ (ref target : Int) (counter : Nat),
    (target - ref).toNat ≤ fuel →
    Legacy.spaceLoop ref target counter =
      (List.replicate (steps ref target) ' ', ref + 30 * steps ref target,
        counter + steps ref target) := by
  induction fuel with
  | zero =>
    intro ref target counter h
    rw [Legacy.spaceLoop]
    have h0 : ¬ ref < target := by omega
    rw [if_neg h0, steps_eq_zero h0]
    simp
  | succ n ih =>
    intro ref target counter h
    rw [Legacy.spaceLoop]
    by_cases h0 : ref < target
    · rw [if_pos h0, ih (ref + 30) target (counter + 1) (by omega), steps_succ h0]
      simp only [Prod.mk.injEq]
      refine ⟨(List.replicate_succ _ _).symm, by push_cast; ring, by omega⟩
    · rw [if_neg h0, steps_eq_zero h0]
      simp

theorem spaceLoop_eq (ref target : Int) (counter : Nat) :
    Legacy.spaceLoop ref target counter =
      (List.replicate (steps ref target) ' ', ref + 30 * steps ref target,
        counter + steps ref target) :=
  spaceLoop_eq_aux (target - ref).toNat ref target counter le_rfl

theorem padLoop_eq_aux (fuel : Nat) : ∀ (ref : Int) (counter : Nat),
    49 - counter ≤ fuel →
    Legacy.padLoop ref counter =
      (List.replicate (49 - counter) '|', ref + 30 * (49 - counter : Nat),
        max counter 49) := by
  induction fuel with
  | zero =>
    intro ref counter h
    rw [Legacy.padLoop]
    have h0 : ¬ counter < 49 := by omega
    rw [if_neg h0]
    have h1 : 49 - counter = 0 := by omega
    rw [h1]
    simp only [Prod.mk.injEq]
    refine ⟨rfl, by push_cast; ring, by omega⟩
  | succ n ih =>
    intro ref counter h
    rw [Legacy.padLoop]
    by_cases h0 : counter < 49
    · rw [if_pos h0, ih (ref + 30) (counter + 1) (by omega)]
      have h1 : 49 - counter = (49 - (counter + 1)) + 1 := by omega
      rw [h1]
      simp only [Prod.mk.injEq]
      refine ⟨(List.replicate_succ _ _).symm, by push_cast; omega, by omega⟩
    · rw [if_neg h0]
      have h1 : 49 - counter = 0 := by omega
      rw [h1]
      simp only [Prod.mk.injEq]
      refine ⟨rfl, by push_cast; ring, by omega⟩

theorem padLoop_eq (ref : Int) (counter : Nat) :
    Legacy.padLoop ref counter =
      (List.replicate (49 - counter) '|', ref + 30 * (49 - counter : Nat),
        max counter 49) :=
  padLoop_eq_aux (49 - counter) ref counter le_rfl

theorem visRow_eq (s0 sn en : Int) (counter : Nat) :
    Legacy.visRow s0 sn en counter = amendedVisRow s0 sn en counter := by
  simp only [Legacy.visRow, amendedVisRow, barLoop_eq, spaceLoop_eq, padLoop_eq]

theorem visRows_eq (s0 : Int) (counter : Nat) (frames : List (Int × Int)) :
    Legacy.visRows s0 counter frames = amendedVisRows s0 counter frames := by
  induction frames generalizing counter with
  | nil => rfl
  | cons p rest ih =>
    obtain ⟨sn, en⟩ := p
    rw [Legacy.visRows, amendedVisRows, visRow_eq, ih]

theorem vis_eq_amendedVis (frames : List (Int × Int)) :
    Legacy.vis frames = amendedVis frames := by
  cases frames with
  | nil => rfl
  | cons p rest =>
    obtain ⟨s0, e0⟩ := p
    rw [Legacy.vis, amendedVis, visRows_eq]

/-- The pairwise fold of find_shared_timeframe splits into a max-fold over
the normalized start times and a min-fold over the normalized end times. -/
theorem foldl_norm_pair (l : List TimeFrame) (p : Int × Int) :
    l.foldl
      (fun (acc : Int × Int) tf =>
        (if tf.utcStart > acc.1 then tf.utcStart else acc.1,
         if tf.utcEnd < acc.2 then tf.utcEnd else acc.2))
      p =
    ((l.map TimeFrame.utcStart).foldl max p.1,
     (l.map TimeFrame.utcEnd).foldl min p.2) := by
  induction l generalizing p with
  | nil => rfl
  | cons tf rest ih =>
    simp only [List.foldl_cons, List.map_cons]
    rw [ih]
    have h1 : (if tf.utcStart > p.1 then tf.utcStart else p.1) = max p.1 tf.utcStart := by
      rcases le_or_lt tf.utcStart p.1 with h | h
      · rw [if_neg (not_lt.mpr h), max_eq_left h]
      · rw [if_pos h, max_eq_right (le_of_lt h)]
    have h2 : (if tf.utcEnd < p.2 then tf.utcEnd else p.2) = min p.2 tf.utcEnd := by
      rcases le_or_lt p.2 tf.utcEnd with h | h
      · rw [if_neg (not_lt.mpr h), min_eq_left h]
      · rw [if_pos h, min_eq_right (le_of_lt h)]
    simp only [h1, h2]

/-- find_shared_timeframe on a nonempty store is the max of the normalized
starts paired with the min of the normalized ends, filtered by the strict
comparison of the source. -/
theorem find_shared_timeframe_eq (t0 : TimeFrame) (rest : List TimeFrame) :
    TimeSync.find_shared_timeframe (t0 :: rest) =
      (if (rest.map TimeFrame.utcStart).foldl max t0.utcStart >
          (rest.map TimeFrame.utcEnd).foldl min t0.utcEnd then none
       else some ((rest.map TimeFrame.utcStart).foldl max t0.utcStart,
                  (rest.map TimeFrame.utcEnd).foldl min t0.utcEnd)) := by
  simp only [TimeSync.find_shared_timeframe, TimeFrame.get_norm_times]
  rw [foldl_norm_pair]

/-- A key that is not among the keys of an association list looks up to
none. -/
theorem lookup_eq_none_of_not_mem_keys (tid : String) (l : TimeSync.Store)
    (h : tid ∉ l.map Prod.fst) : l.lookup tid = none := by
  induction l with
  | nil => rfl
  | cons p rest ih =>
    obtain ⟨a, b⟩ := p
    simp only [List.map_cons, List.mem_cons, not_or] at h
    have hstep : List.lookup tid ((a, b) :: rest) = List.lookup tid rest := by
      simp [List.lookup, beq_false_of_ne h.1]
    rw [hstep]
    exact ih h.2

/-- After erasing the entry of a key from a store with pairwise distinct
keys, the key looks up to none. -/
theorem lookup_eraseP_eq_none (tid : String) (l : TimeSync.Store)
    (h : (l.map Prod.fst).Nodup) :
    (l.eraseP (fun p => p.1 == tid)).lookup tid = none := by
  induction l with
  | nil => rfl
  | cons p rest ih =>
    obtain ⟨a, b⟩ := p
    simp only [List.map_cons, List.nodup_cons] at h
    by_cases hp : a = tid
    · rw [List.eraseP_cons_of_pos (by simp [hp])]
      exact lookup_eq_none_of_not_mem_keys tid rest (hp ▸ h.1)
    · rw [List.eraseP_cons_of_neg (by simp [hp])]
      have hstep : ∀ l2 : TimeSync.Store,
          List.lookup tid ((a, b) :: l2) = List.lookup tid l2 := by
        intro l2
        simp [List.lookup, beq_false_of_ne (Ne.symm hp)]
      rw [hstep]
      exact ih h.2

/-- Appending a fresh key-value pair to a store in which the key is absent
makes the key look up to the value. -/
theorem lookup_append_single (k : String) (v : TimeFrame) (store : TimeSync.Store)
    (hc : store.lookup k = none) : (store ++ [(k, v)]).lookup k = some v := by
  induction store with
  | nil => simp [List.lookup]
  | cons p rest ih =>
    obtain ⟨a, b⟩ := p
    by_cases hp : k = a
    · subst hp
      simp [List.lookup] at hc
    · simp only [List.cons_append, List.lookup, beq_false_of_ne hp] at hc ⊢
      exact ih hc

/-- Replacing the entry of a present key in place makes the key look up to
the new value. -/
theorem lookup_map_replace (k : String) (v : TimeFrame) (store : TimeSync.Store)
    (hc : (store.lookup k).isSome) :
    (store.map (fun p => if p.1 == k then (k, v) else p)).lookup k = some v := by
  induction store with
  | nil => simp [List.lookup] at hc
  | cons p rest ih =>
    obtain ⟨a, b⟩ := p
    by_cases hp : a = k
    · subst hp
      rw [List.map_cons]
      have hfa : (if ((a, b).1 == a) = true then (a, v) else (a, b)) = (a, v) := by
        simp
      rw [hfa]
      simp [List.lookup]
    · have h2 : (k == a) = false := beq_false_of_ne (Ne.symm hp)
      simp only [List.lookup, h2] at hc
      rw [List.map_cons]
      have hfa : (if ((a, b).1 == k) = true then (k, v) else (a, b)) = (a, b) := by
        simp [beq_false_of_ne hp]
      rw [hfa]
      have hstep : ∀ l2 : TimeSync.Store,
          List.lookup k ((a, b) :: l2) = List.lookup k l2 := by
        intro l2
        simp [List.lookup, h2]
      rw [hstep]
      exact ih hc

/-- Looking up the assigned key after a dictionary item assignment yields the
assigned value. -/
theorem lookup_dictSet (k : String) (v : TimeFrame) (store : TimeSync.Store) :
    (TimeSync.dictSet k v store).lookup k = some v := by
  unfold TimeSync.dictSet
  by_cases hc : (store.lookup k).isSome
  · rw [if_pos hc]
    exact lookup_map_replace k v store hc
  · rw [if_neg hc]
    exact lookup_append_single k v store (Option.not_isSome_iff_eq_none.mp hc)

/-- Characterization of the spec-modelled TimeFrame constructor for offsets
within range. -/
theorem mkTimeFrame_eq (o s e : Int) (ho : o.natAbs ≤ 1440) :
    mkTimeFrame o s e =
      if s - o < e - o + (if e ≤ s then 1440 else 0) then
        .ok ⟨o, s, e, s - o, e - o + (if e ≤ s then 1440 else 0)⟩
      else .error .EmptyWindow := by
  simp only [mkTimeFrame]
  rw [if_neg (show ¬ 1440 < o.natAbs by omega)]
  by_cases hcross : e ≤ s
  · simp only [if_pos hcross]
  · simp only [if_neg hcross]
    norm_num

/- ------------------------------------------------------------------ -/
/- Claim theorems                                                      -/
/- ------------------------------------------------------------------ -/

/-- Claim C1: at UTC start times 600 and 720 minutes (10:00 and 12:00) and
UTC end times 1020 and 1080 (17:00 and 18:00), the legacy run of
src/common_time.py keeps the minimum start and the maximum end and reports
the union bounds (600, 1080), although its own comments and the claim require
the maximum of the starts and the minimum of the ends; find_shared_timeframe
of src/src/timesync.py performs the claimed reduction and returns
(720, 1020) on the same UTC windows. -/
theorem C1_run_tracks_min_start_max_end :
    Legacy.run [600, 720] [1020, 1080] = some (some (600, 1080)) ∧
    TimeSync.find_shared_timeframe
      [⟨0, 600, 1020, 600, 1020⟩, ⟨0, 720, 1080, 720, 1080⟩] = some (720, 1020) := by
  decide

/-- Claim C2, counterexample: with normalized UTC windows (600, 720) and
(720, 900) the latest start equals the earliest end (720), yet
find_shared_timeframe returns the degenerate pair some (720, 720) rather than
none as the claim states for the exact-equality boundary. -/
theorem C2_boundary_counterexample :
    TimeSync.find_shared_timeframe
      [⟨0, 600, 720, 600, 720⟩, ⟨0, 720, 900, 720, 900⟩] = some (720, 720) := by
  decide

/-- Claim C2 (amended): for every store holding at least 2 timeframes,
find_shared_timeframe returns none exactly when the earliest normalized end
is strictly below the latest normalized start; at the exact-equality boundary
it instead returns some of the zero-length pair (latestStart, earliestEnd). -/
theorem C2_no_shared_iff_strict (t0 : TimeFrame) (rest : List TimeFrame) :
    (TimeSync.find_shared_timeframe (t0 :: rest) = none ↔
      (rest.map TimeFrame.utcEnd).foldl min t0.utcEnd <
        (rest.map TimeFrame.utcStart).foldl max t0.utcStart) ∧
    ((rest.map TimeFrame.utcStart).foldl max t0.utcStart =
        (rest.map TimeFrame.utcEnd).foldl min t0.utcEnd →
      TimeSync.find_shared_timeframe (t0 :: rest) =
        some ((rest.map TimeFrame.utcStart).foldl max t0.utcStart,
              (rest.map TimeFrame.utcEnd).foldl min t0.utcEnd)) := by
  rw [find_shared_timeframe_eq]
  by_cases h : (rest.map TimeFrame.utcStart).foldl max t0.utcStart >
      (rest.map TimeFrame.utcEnd).foldl min t0.utcEnd
  · rw [if_pos h]
    exact ⟨⟨fun _ => by omega, fun _ => rfl⟩, fun heq => absurd h (by omega)⟩
  · rw [if_neg h]
    exact ⟨⟨fun hh => by simp at hh, fun hh => absurd hh h⟩, fun _ => rfl⟩

/-- Claim C2 witness: at UTC windows (540, 660) and (660, 840) the latest
start and earliest end are both 660, and the amended theorem yields the
degenerate shared pair. -/
theorem C2_no_shared_iff_strict_witness :
    TimeSync.find_shared_timeframe
      [⟨0, 540, 660, 540, 660⟩, ⟨0, 660, 840, 660, 840⟩] = some (660, 660) := by
  have h := (C2_no_shared_iff_strict ⟨0, 540, 660, 540, 660⟩
    [⟨0, 660, 840, 660, 840⟩]).2 (by decide)
  rw [h]
  decide

/-- Claim C3: for every in-range offset, a successfully constructed timeframe
has utcStart = localStart - offset, has utcEnd = localEnd - offset plus
24 hours exactly when localEnd <= localStart in same-day comparison, and
satisfies utcStart < utcEnd; a violation of the normalized-window inequality
is exactly the EmptyWindow failure. -/
theorem C3_normalization (utcOffset localStart localEnd : Int)
    (hoff : utcOffset.natAbs ≤ 1440) :
    (∀ tf, mkTimeFrame utcOffset localStart localEnd = .ok tf →
      tf.utcStart = localStart - utcOffset ∧
      (localEnd ≤ localStart → tf.utcEnd = localEnd - utcOffset + 1440) ∧
      (localStart < localEnd → tf.utcEnd = localEnd - utcOffset) ∧
      tf.utcStart < tf.utcEnd) ∧
    (mkTimeFrame utcOffset localStart localEnd = .error .EmptyWindow ↔
      ¬ (localStart - utcOffset <
          localEnd - utcOffset + (if localEnd ≤ localStart then 1440 else 0))) := by
  rw [mkTimeFrame_eq utcOffset localStart localEnd hoff]
  by_cases hwin : localStart - utcOffset <
      localEnd - utcOffset + (if localEnd ≤ localStart then 1440 else 0)
  · rw [if_pos hwin]
    constructor
    · intro tf htf
      have hmk := Except.ok.inj htf
      subst hmk
      refine ⟨rfl, ?_, ?_, hwin⟩
      · intro hle
        simp only [if_pos hle]
      · intro hlt
        simp only [if_neg (not_le.mpr hlt)]
        omega
    · exact ⟨fun hh => absurd hh (by simp), fun hh => absurd hwin hh⟩
  · rw [if_neg hwin]
    exact ⟨fun tf htf => absurd htf (by simp), ⟨fun _ => hwin, fun _ => rfl⟩⟩

/-- Claim C3 witness: offset -02:00, local window 22:00 to 06:00 (1320 to 360
minutes) crosses midnight; construction succeeds with utcStart 1440 and
utcEnd 1920, and the normalized window is increasing. -/
theorem C3_normalization_witness :
    mkTimeFrame (-120) 1320 360 = Except.ok ⟨-120, 1320, 360, 1440, 1920⟩ ∧
    (⟨-120, 1320, 360, 1440, 1920⟩ : TimeFrame).utcStart <
      (⟨-120, 1320, 360, 1440, 1920⟩ : TimeFrame).utcEnd := by
  refine ⟨by rfl, ?_⟩
  exact ((C3_normalization (-120) 1320 360 (by decide)).1
    ⟨-120, 1320, 360, 1440, 1920⟩ (by rfl)).2.2.2

/-- Claim C4: the find / run / sync command with 0 or 1 stored timeframes
signals InsufficientTimeframes and does not compute an interval or none. -/
theorem C4_insufficient (store : TimeSync.Store)
    (h : store.length = 0 ∨ store.length = 1) :
    TimeSync.run_command store = .error .InsufficientTimeframes := by
  unfold TimeSync.run_command
  rw [if_pos (by omega)]

/-- Claim C4 witness: the empty store and a singleton store both signal
InsufficientTimeframes. -/
theorem C4_insufficient_witness :
    TimeSync.run_command [] = .error .InsufficientTimeframes ∧
    TimeSync.run_command [("a", ⟨0, 0, 60, 0, 60⟩)] =
      .error .InsufficientTimeframes :=
  ⟨C4_insufficient [] (Or.inl rfl),
   C4_insufficient [("a", ⟨0, 0, 60, 0, 60⟩)] (Or.inr rfl)⟩

/-- Claim C5, counterexample: reset of src/src/timesync.py called with the
declined confirmation response "n" on a store of one timeframe leaves the
store unchanged and nonempty, so the store is not empty after every call to
reset. -/
theorem C5_reset_counterexample :
    (TimeSync.reset "n" [("a", ⟨0, 0, 60, 0, 60⟩)]).2 ≠ [] := by
  decide

/-- Claim C5 (amended): reset clears the store and returns true exactly when
the lowercased confirmation response is y or yes; on any other response it
returns false and leaves the store unchanged. The legacy clear of
src/common_time.py empties the state unconditionally. -/
theorem C5_reset_on_confirmation (response : String) (store : TimeSync.Store)
    (st : Legacy.State) :
    (TimeSync.confirms response = true →
      TimeSync.reset response store = (true, [])) ∧
    (TimeSync.confirms response = false →
      TimeSync.reset response store = (false, store)) ∧
    Legacy.clear st = ⟨[], [], 0⟩ := by
  unfold TimeSync.reset Legacy.clear
  refine ⟨fun h => by rw [if_pos h], fun h => by rw [if_neg (by simp [h])], rfl⟩

/-- Claim C5 witness: a confirming response empties the store and a declining
response leaves it intact. -/
theorem C5_reset_on_confirmation_witness :
    TimeSync.reset "y" [("a", ⟨0, 0, 60, 0, 60⟩)] = (true, []) ∧
    TimeSync.reset "n" [("b", ⟨0, 0, 60, 0, 60⟩)] =
      (false, [("b", ⟨0, 0, 60, 0, 60⟩)]) :=
  ⟨(C5_reset_on_confirmation "y" [("a", ⟨0, 0, 60, 0, 60⟩)] ⟨[], [], 0⟩).1 (by decide),
   (C5_reset_on_confirmation "n" [("b", ⟨0, 0, 60, 0, 60⟩)] ⟨[], [], 0⟩).2.1 (by decide)⟩

/-- Claim C6: when the id is already present, add_timeframe with a declined
confirmation aborts as a duplicate and returns the store untouched, and with
an explicit overwrite confirmation it stores the newly constructed timeframe
under the id. -/
theorem C6_no_silent_overwrite (store : TimeSync.Store) (tid : String)
    (off s e : Int) (response : String) (tf0 : TimeFrame)
    (hmem : store.lookup tid = some tf0) :
    (TimeSync.confirms response = false →
      TimeSync.add_timeframe (some tid) off s e response store =
        (.duplicateAborted, store)) ∧
    (∀ tf, TimeSync.confirms response = true →
      mkTimeFrame off s e = .ok tf →
      (TimeSync.add_timeframe (some tid) off s e response store).2.lookup tid =
        some tf) := by
  constructor
  · intro hresp
    simp only [TimeSync.add_timeframe, hmem, hresp]
    simp
  · intro tf hresp hmk
    simp only [TimeSync.add_timeframe, hresp, hmk]
    simp only [Bool.not_true, Bool.and_false, Bool.false_eq_true, if_false]
    exact lookup_dictSet tid tf store

/-- Claim C6 witness: adding under the existing id "a" with response "n"
aborts and leaves the singleton store unchanged. -/
theorem C6_no_silent_overwrite_witness :
    TimeSync.add_timeframe (some "a") 0 0 60 "n" [("a", ⟨0, 0, 120, 0, 120⟩)] =
      (.duplicateAborted, [("a", ⟨0, 0, 120, 0, 120⟩)]) :=
  (C6_no_silent_overwrite [("a", ⟨0, 0, 120, 0, 120⟩)] "a" 0 0 60 "n"
    ⟨0, 0, 120, 0, 120⟩ (by decide)).1 (by decide)

/-- Claim C7: removing an absent id reports failure and returns the store
with identical size and contents, and after a successful removal a repeated
remove of the same id reports failure again rather than success. -/
theorem C7_remove_not_found (tid : String) (store : TimeSync.Store) :
    (store.lookup tid = none →
      TimeSync.remove_timeframe tid store = (false, store)) ∧
    ((store.map Prod.fst).Nodup →
      ∀ store2, TimeSync.remove_timeframe tid store = (true, store2) →
        TimeSync.remove_timeframe tid store2 = (false, store2)) := by
  constructor
  · intro habs
    unfold TimeSync.remove_timeframe
    rw [if_pos (by simp [habs])]
  · intro hnd store2 hrem
    unfold TimeSync.remove_timeframe at hrem
    by_cases habs : (store.lookup tid).isNone
    · rw [if_pos habs] at hrem
      exact absurd (congrArg Prod.fst hrem) (by simp)
    · rw [if_neg habs] at hrem
      have hs2 : store2 = store.eraseP (fun p => p.1 == tid) := by
        simpa using (congrArg Prod.snd hrem).symm
      subst hs2
      unfold TimeSync.remove_timeframe
      rw [if_pos (by simp [lookup_eraseP_eq_none tid store hnd])]

/-- Claim C7 witness: removing the absent id "x" leaves a singleton store
unchanged, and after removing "a" from the singleton store a second removal
of "a" reports failure. -/
theorem C7_remove_not_found_witness :
    TimeSync.remove_timeframe "x" [("a", ⟨0, 0, 60, 0, 60⟩)] =
      (false, [("a", ⟨0, 0, 60, 0, 60⟩)]) ∧
    TimeSync.remove_timeframe "a" [] = (false, []) :=
  ⟨(C7_remove_not_found "x" [("a", ⟨0, 0, 60, 0, 60⟩)]).1 (by decide),
   (C7_remove_not_found "a" [("a", ⟨0, 0, 60, 0, 60⟩)]).2 (by decide) [] (by decide)⟩

/-- Claim C8: for the legacy add, the appended UTC pair satisfies
utcEnd - utcStart = localEnd - localStart when the end is strictly after the
start in same-day comparison, and utcEnd - utcStart = (localEnd + 24h) -
localStart in the overnight case; the offset cancels in both. -/
theorem C8_offset_cancels (offset startTime endTime : Int) (st : Legacy.State)
    (us ue : Int)
    (hs : (Legacy.add offset startTime endTime st).startTimes.getLast? = some us)
    (he : (Legacy.add offset startTime endTime st).endTimes.getLast? = some ue) :
    (startTime < endTime → ue - us = endTime - startTime) ∧
    (endTime ≤ startTime → ue - us = (endTime + 1440) - startTime) := by
  simp only [Legacy.add, Legacy.convertToUTC] at hs he
  rw [List.getLast?_concat] at hs he
  have hus : us = startTime - offset := (Option.some.inj hs).symm
  have hue : ue = if startTime < endTime then endTime - offset
      else endTime + 1440 - offset := (Option.some.inj he).symm
  constructor
  · intro h
    rw [hus, hue, if_pos h]
    ring
  · intro h
    rw [hus, hue, if_neg (not_lt.mpr h)]
    ring

/-- Claim C8 witness: offset +02:00 (120 minutes), local 09:00 to 17:00 (540
to 1020): the appended UTC pair is (420, 900) and the span 480 equals the
local span. -/
theorem C8_offset_cancels_witness :
    (Legacy.add 120 540 1020 ⟨[], [], 0⟩).startTimes.getLast? = some 420 ∧
    (900 : Int) - 420 = 1020 - 540 :=
  ⟨by decide,
   (C8_offset_cancels 120 540 1020 ⟨[], [], 0⟩ 420 900 (by decide) (by decide)).1
     (by decide)⟩

/-- Claim C9, counterexample: for the stored UTC windows (600, 1080) and
(540, 900) the legacy vis output differs from the visualization the claim
describes (48 buckets measured from the global minimum start 540): the actual
first row has 49 buckets measured from the first start 600, and the second
row is truncated because the increment counter is shared across rows. -/
theorem C9_vis_counterexample :
    Legacy.vis [(600, 1080), (540, 900)] ≠ claimVis [(600, 1080), (540, 900)] := by
  rw [vis_eq_amendedVis]
  decide

/-- Claim C9 (amended): for every store, the legacy vis renders each
timeframe as ceil((utcStart - firstStart) / 30) leading bars, one space per
30-minute grid step from the first grid point at or past utcStart up to
utcEnd, and trailing bars only while a counter shared across all rows stays
below 49: the reference origin is the first stored start rather than the
global minimum, and rows after the first get no trailing padding once the
shared counter reaches 49. -/
theorem C9_vis_closed_form (frames : List (Int × Int)) :
    Legacy.vis frames = amendedVis frames :=
  vis_eq_amendedVis frames

/-- Claim C10: add_timeframe with a None id substitutes the id string
"Timeframe " followed by the store size minus one; on the empty store this
default is "Timeframe -1"; and after a removal the default can collide with
an id already present (adding a, b, then a default "Timeframe 1" and removing
a leaves a store of size 2 whose default id "Timeframe 1" is present). -/
theorem C10_default_id :
    (∀ (off s e : Int) (resp : String) (store : TimeSync.Store),
      TimeSync.add_timeframe none off s e resp store =
        TimeSync.add_timeframe
          (some ("Timeframe " ++ toString ((store.length : Int) - 1)))
          off s e resp store) ∧
    (∀ (off s e : Int) (resp : String),
      TimeSync.add_timeframe none off s e resp [] =
        TimeSync.add_timeframe (some "Timeframe -1") off s e resp []) ∧
    ((TimeSync.remove_timeframe "a"
        (TimeSync.add_timeframe none 0 0 60 "n"
          (TimeSync.add_timeframe (some "b") 0 0 60 "n"
            (TimeSync.add_timeframe (some "a") 0 0 60 "n" []).2).2).2).2.length = 2 ∧
      ((TimeSync.remove_timeframe "a"
        (TimeSync.add_timeframe none 0 0 60 "n"
          (TimeSync.add_timeframe (some "b") 0 0 60 "n"
            (TimeSync.add_timeframe (some "a") 0 0 60 "n" []).2).2).2).2.lookup
        "Timeframe 1").isSome = true) := by
  refine ⟨fun off s e resp store => rfl, fun off s e resp => ?_, by decide⟩
  have h : ("Timeframe " ++ toString ((([] : TimeSync.Store).length : Int) - 1)) =
      "Timeframe -1" := by decide
  rw [← h]
  rfl

end CommonTime
